import Mathlib

/-!
# Verification of the MallCCTV tracking/aggregation core

Shallow embedding of the two core modules of the repository:

* `src/src/cv_pipeline/tracker.py` — the online Associator (`ByteTracker`):
  greedy IoU matching of per-frame detections against active tracks,
  track creation with monotonically increasing ids, and age-based eviction.
* `src/src/cv_pipeline/track_state_processor.py` — the windowed Aggregator:
  `parse_bbox`, `get_recent_detections`, `compute_metrics`, `process_tracks`,
  together with the `TrackState` table of `src/src/database/models.py`.

Python floats are embedded as exact rationals (`ℚ`); values produced through
`math.sqrt` are embedded as exact reals (`ℝ`, via `Real.sqrt`).  Python ints
(frame ids, timestamps in whole seconds) are embedded as `ℤ`; dict insertion
order is modelled with association lists that append on fresh keys and update
in place on existing keys, exactly as CPython dicts behave.
-/

/-! ## Geometry and the Associator (`tracker.py`) -/

/-- A bounding box `(x1, y1, x2, y2)`, as passed to `ByteTracker`. -/
abbrev Box : Type := ℚ × ℚ × ℚ × ℚ

/-- `area1 = (x2_1 - x1_1) * (y2_1 - y1_1)` of `_calculate_iou`
(`tracker.py` lines 61-62). -/
def boxArea (b : Box) : ℚ := (b.2.2.1 - b.1) * (b.2.2.2 - b.2.1)

/-- `ByteTracker._calculate_iou` (`tracker.py` lines 48-64): standard
axis-aligned intersection over union with an early `0.0` when the
intersection rectangle is inverted, and `0.0` when the union is not
positive. -/
def calculateIou (box1 box2 : Box) : ℚ :=
  let x1i := max box1.1 box2.1
  let y1i := max box1.2.1 box2.2.1
  let x2i := min box1.2.2.1 box2.2.2.1
  let y2i := min box1.2.2.2 box2.2.2.2
  if x2i < x1i ∨ y2i < y1i then 0
  else
    let inter := (x2i - x1i) * (y2i - y1i)
    let union := boxArea box1 + boxArea box2 - inter
    if 0 < union then inter / union else 0

/-- Input detection dict as read by `ByteTracker.update`: the fields the
tracker touches (`bbox`, `confidence`) plus the remaining payload
(`class_name`), which `update` copies through via `{**detection, ...}`. -/
structure Det where
  bbox : Box
  confidence : ℚ
  className : String
  deriving DecidableEq, Repr

/-- One value of the `self.tracks` dict: `{"bbox": ..., "last_seen": ...}`. -/
structure TrackRec where
  bbox : Box
  lastSeen : ℤ
  deriving DecidableEq, Repr

/-- The `ByteTracker` instance state (`tracker.py` lines 8-13).  `tracks` is
the `self.tracks` dict, in insertion order. -/
structure TrackerState where
  trackThresh : ℚ
  matchThresh : ℚ
  maxAge : ℤ
  tracks : List (ℕ × TrackRec)
  nextId : ℕ
  deriving DecidableEq, Repr

/-- `ByteTracker.__init__`: empty track dict, `next_id = 1`. -/
def initTracker (trackThresh matchThresh : ℚ) (maxAge : ℤ) : TrackerState :=
  { trackThresh := trackThresh, matchThresh := matchThresh, maxAge := maxAge
    tracks := [], nextId := 1 }

/-- A returned element of `tracked_objects`: `{**detection, "track_id": track_id}`
(`tracker.py` line 39).  Both branches of the loop bind `track_id` to an int,
so the output id is total here. -/
structure TrackedDet where
  det : Det
  trackId : ℕ
  deriving DecidableEq, Repr

/-- One step of the inner `for track_id, track in list(self.tracks.items())`
loop (`tracker.py` lines 24-28): keep the candidate with
`iou > match_thresh and iou > best_iou`. -/
def bestFold (bbox : Box) (matchThresh : ℚ) (acc : Option ℕ × ℚ) (t : ℕ × TrackRec) :
    Option ℕ × ℚ :=
  let iou := calculateIou bbox t.2.bbox
  if matchThresh < iou ∧ acc.2 < iou then (some t.1, iou) else acc

/-- The whole inner loop, starting from `best_match_id = None`, `best_iou = 0.0`. -/
def bestMatch (tracks : List (ℕ × TrackRec)) (bbox : Box) (matchThresh : ℚ) : Option ℕ :=
  (tracks.foldl (bestFold bbox matchThresh) (none, 0)).1

/-- In-place dict update `self.tracks[best_match_id] = ...` (keeps insertion
order, as CPython does for an existing key). -/
def setTrack (tracks : List (ℕ × TrackRec)) (tid : ℕ) (rec : TrackRec) :
    List (ℕ × TrackRec) :=
  tracks.map fun p => if p.1 = tid then (tid, rec) else p

/-- The `else` branch of `tracker.py` lines 34-37: insert a fresh track under
`self.next_id` (dict insert appends) and increment `next_id`; the detection is
tagged with the fresh id. -/
def newTrackStep (s : TrackerState) (outs : List TrackedDet) (d : Det) (fid : ℤ) :
    TrackerState × List TrackedDet :=
  ({ s with tracks := s.tracks ++ [(s.nextId, ⟨d.bbox, fid⟩)], nextId := s.nextId + 1 },
   outs ++ [⟨d, s.nextId⟩])

/-- One iteration of the `for detection in high_conf` loop
(`tracker.py` lines 20-39).  `if best_match_id:` is Python truthiness:
`None` and `0` both fall through to track creation (ids start at 1, so the
`0` case is unreachable from the initial state, but it is embedded
faithfully). -/
def stepDet (fid : ℤ) (acc : TrackerState × List TrackedDet) (d : Det) :
    TrackerState × List TrackedDet :=
  let s := acc.1
  match bestMatch s.tracks d.bbox s.matchThresh with
  | some tid =>
      if tid = 0 then newTrackStep s acc.2 d fid
      else
        ({ s with tracks := setTrack s.tracks tid ⟨d.bbox, fid⟩ }, acc.2 ++ [⟨d, tid⟩])
  | none => newTrackStep s acc.2 d fid

/-- State after the detection loop but before eviction ("kept alive or
created" tracks of the current call). -/
def midState (s : TrackerState) (dets : List Det) (fid : ℤ) : TrackerState :=
  ((dets.filter fun d => s.trackThresh < d.confidence).foldl (stepDet fid) (s, [])).1

/-- Outputs accumulated by the detection loop. -/
def midOuts (s : TrackerState) (dets : List Det) (fid : ℤ) : List TrackedDet :=
  ((dets.filter fun d => s.trackThresh < d.confidence).foldl (stepDet fid) (s, [])).2

/-- `ByteTracker.update` (`tracker.py` lines 16-46): filter to
`confidence > track_thresh`, run the greedy matching loop, then rebuild
`self.tracks` keeping only `frame_id - last_seen < max_age`. -/
def updateTracker (s : TrackerState) (dets : List Det) (fid : ℤ) :
    TrackerState × List TrackedDet :=
  let s1 := midState s dets fid
  ({ s1 with tracks := s1.tracks.filter fun t => fid - t.2.lastSeen < s1.maxAge },
   midOuts s dets fid)

/-- Two boxes whose interiors cannot overlap: they are separated (or merely
touching) along the x-axis or along the y-axis. -/
def BoxesDisjoint (b1 b2 : Box) : Prop :=
  b1.2.2.1 ≤ b2.1 ∨ b2.2.2.1 ≤ b1.1 ∨ b1.2.2.2 ≤ b2.2.1 ∨ b2.2.2.2 ≤ b1.2.1

/-- If the intersection rectangle is degenerate (zero or negative extent in
either axis), `_calculate_iou` returns `0`: either through the early return
or because the intersection term is `0`. -/
lemma calculateIou_eq_zero_of_thin (b1 b2 : Box)
    (h : min b1.2.2.1 b2.2.2.1 ≤ max b1.1 b2.1 ∨
         min b1.2.2.2 b2.2.2.2 ≤ max b1.2.1 b2.2.1) :
    calculateIou b1 b2 = 0 := by
  simp only [calculateIou]
  split_ifs with h1 h2
  · rfl
  · push_neg at h1
    rcases h with h | h
    · rw [show min b1.2.2.1 b2.2.2.1 - max b1.1 b2.1 = 0 by linarith [h1.1], zero_mul,
        zero_div]
    · rw [show min b1.2.2.2 b2.2.2.2 - max b1.2.1 b2.2.1 = 0 by linarith [h1.2], mul_zero,
        zero_div]
  · rfl

/-- A product that is nonpositive has a nonpositive factor. -/
lemma factor_nonpos_of_mul_nonpos {a b : ℚ} (h : a * b ≤ 0) : a ≤ 0 ∨ b ≤ 0 := by
  by_contra hc
  push_neg at hc
  exact absurd (mul_pos hc.1 hc.2) (by linarith)

/-- C5. The IoU of `tracker.py` satisfies the spec's algebraic laws:
identity `1` on non-degenerate boxes, `0` on disjoint boxes, symmetry, and
`0` whenever the boxes do not overlap or either computed area is
non-positive. -/
theorem calculateIou_laws :
    (∀ x1 y1 x2 y2 : ℚ, x1 < x2 → y1 < y2 →
        calculateIou (x1, y1, x2, y2) (x1, y1, x2, y2) = 1) ∧
    (∀ b1 b2 : Box, BoxesDisjoint b1 b2 → calculateIou b1 b2 = 0) ∧
    (∀ b1 b2 : Box, calculateIou b1 b2 = calculateIou b2 b1) ∧
    (∀ b1 b2 : Box, boxArea b1 ≤ 0 ∨ boxArea b2 ≤ 0 → calculateIou b1 b2 = 0) := by
  refine ⟨?_, ?_, ?_, ?_⟩
  · intro x1 y1 x2 y2 hx hy
    have hA : (0:ℚ) < (x2 - x1) * (y2 - y1) := mul_pos (by linarith) (by linarith)
    simp only [calculateIou, boxArea, max_self, min_self]
    rw [if_neg (by push_neg; exact ⟨le_of_lt hx, le_of_lt hy⟩)]
    rw [show (x2 - x1) * (y2 - y1) + (x2 - x1) * (y2 - y1) - (x2 - x1) * (y2 - y1)
        = (x2 - x1) * (y2 - y1) by ring]
    rw [if_pos hA, div_self hA.ne']
  · intro b1 b2 h
    apply calculateIou_eq_zero_of_thin
    rcases h with h | h | h | h
    · exact Or.inl (le_trans (min_le_left _ _) (le_trans h (le_max_right _ _)))
    · exact Or.inl (le_trans (min_le_right _ _) (le_trans h (le_max_left _ _)))
    · exact Or.inr (le_trans (min_le_left _ _) (le_trans h (le_max_right _ _)))
    · exact Or.inr (le_trans (min_le_right _ _) (le_trans h (le_max_left _ _)))
  · intro b1 b2
    obtain ⟨a1, b1', c1, d1⟩ := b1
    obtain ⟨a2, b2', c2, d2⟩ := b2
    simp only [calculateIou, boxArea]
    rw [max_comm a1 a2, max_comm b1' b2', min_comm c1 c2, min_comm d1 d2,
      add_comm ((c1 - a1) * (d1 - b1')) ((c2 - a2) * (d2 - b2'))]
  · intro b1 b2 h
    apply calculateIou_eq_zero_of_thin
    rcases h with h | h
    · rcases factor_nonpos_of_mul_nonpos h with h | h
      · exact Or.inl (le_trans (min_le_left _ _)
          (le_trans (by linarith) (le_max_left _ _)))
      · exact Or.inr (le_trans (min_le_left _ _)
          (le_trans (by linarith) (le_max_left _ _)))
    · rcases factor_nonpos_of_mul_nonpos h with h | h
      · exact Or.inl (le_trans (min_le_right _ _)
          (le_trans (by linarith) (le_max_right _ _)))
      · exact Or.inr (le_trans (min_le_right _ _)
          (le_trans (by linarith) (le_max_right _ _)))

/-- Witness for `calculateIou_laws` at concrete boxes. -/
theorem calculateIou_laws_witness :
    calculateIou (0, 0, 10, 10) (0, 0, 10, 10) = 1 ∧
    calculateIou (0, 0, 1, 1) (5, 5, 6, 6) = 0 ∧
    calculateIou (0, 0, 1, 1) (2, 0, 3, 1) = calculateIou (2, 0, 3, 1) (0, 0, 1, 1) ∧
    calculateIou (3, 3, 3, 9) (0, 0, 10, 10) = 0 :=
  ⟨calculateIou_laws.1 0 0 10 10 (by norm_num) (by norm_num),
   calculateIou_laws.2.1 (0, 0, 1, 1) (5, 5, 6, 6) (Or.inl (by norm_num [BoxesDisjoint])),
   calculateIou_laws.2.2.1 (0, 0, 1, 1) (2, 0, 3, 1),
   calculateIou_laws.2.2.2 (3, 3, 3, 9) (0, 0, 10, 10)
     (Or.inl (by norm_num [boxArea]))⟩

/-! ### The spec's end-to-end Associator example (C2) -/

/-- Frame-1 detection of the spec's end-to-end example. -/
def detFrame1 : Det := ⟨(0, 0, 10, 10), 9/10, "person"⟩

/-- Frame-2 detection of the spec's end-to-end example. -/
def detFrame2 : Det := ⟨(1, 1, 11, 11), 9/10, "person"⟩

/-- Fresh tracker of the example: `match_thresh = 0.5`, default
`track_thresh = 0.5`, `max_age = 30`. -/
def trackerC2 : TrackerState := initTracker (1/2) (1/2) 30

/-- C2 counterexample: the IoU of the example's two boxes is `81/119`
(≈ 0.6807), which is more than `0.1` below the `≈ 0.81` figure stated by the
spec, so the claim's IoU value is false. -/
theorem c2_iou_value_refuted :
    calculateIou detFrame1.bbox detFrame2.bbox = 81/119 ∧ (81:ℚ)/119 + 1/10 < 81/100 := by
  constructor
  · norm_num [detFrame1, detFrame2, calculateIou, boxArea, max_def, min_def]
  · norm_num

/-- C2 amended: the end-to-end example behaves as stated — frame 1 creates
track id 1, frame 2 matches it (IoU `= 81/119 ≈ 0.68`, which exceeds `0.5`),
and at frame 40 with `max_age = 30` the track is evicted — with the IoU value
`81/119`, not `≈ 0.81`. -/
theorem c2_scenario :
    (updateTracker trackerC2 [detFrame1] 1).2 = [⟨detFrame1, 1⟩] ∧
    (updateTracker (updateTracker trackerC2 [detFrame1] 1).1 [detFrame2] 2).2 =
      [⟨detFrame2, 1⟩] ∧
    calculateIou detFrame1.bbox detFrame2.bbox = 81/119 ∧ (1:ℚ)/2 < 81/119 ∧
    (updateTracker
        (updateTracker (updateTracker trackerC2 [detFrame1] 1).1 [detFrame2] 2).1
        [] 40).1.tracks = [] := by
  refine ⟨?_, ?_, ?_, by norm_num, ?_⟩ <;>
    norm_num [updateTracker, midState, midOuts, stepDet, bestMatch, bestFold,
      newTrackStep, setTrack, initTracker, trackerC2, detFrame1, detFrame2,
      calculateIou, boxArea, max_def, min_def]

/-! ### General properties of `ByteTracker.update` (C3, C4, C9, C10) -/

/-- The ids of the `self.tracks` dict, in insertion order. -/
def keysOf (tracks : List (ℕ × TrackRec)) : List ℕ := tracks.map (·.1)

lemma keysOf_append (t u : List (ℕ × TrackRec)) :
    keysOf (t ++ u) = keysOf t ++ keysOf u := List.map_append _ _ _

lemma keysOf_setTrack (tracks : List (ℕ × TrackRec)) (tid : ℕ) (rec : TrackRec) :
    keysOf (setTrack tracks tid rec) = keysOf tracks := by
  unfold keysOf setTrack
  rw [List.map_map]
  apply List.map_congr_left
  intro p _
  by_cases h : p.1 = tid <;> simp [h]

lemma mem_setTrack_fst (tracks : List (ℕ × TrackRec)) (tid : ℕ) (rec : TrackRec)
    (p : ℕ × TrackRec) (hp : p ∈ setTrack tracks tid rec) :
    ∃ q ∈ tracks, p.1 = q.1 := by
  unfold setTrack at hp
  obtain ⟨q, hq, hpq⟩ := List.mem_map.mp hp
  refine ⟨q, hq, ?_⟩
  by_cases h : q.1 = tid <;> simp [h] at hpq <;> simp [← hpq, h]

/-- The winner of the inner matching loop, if any, is the id of a
currently-live track. -/
lemma bestFold_fst_mem (bbox : Box) (mt : ℚ) :
    ∀ (ts : List (ℕ × TrackRec)) (acc : Option ℕ × ℚ),
      (ts.foldl (bestFold bbox mt) acc).1 = acc.1 ∨
      ∃ t ∈ ts, (ts.foldl (bestFold bbox mt) acc).1 = some t.1 := by
  intro ts
  induction ts with
  | nil => intro acc; exact Or.inl rfl
  | cons t ts ih =>
    intro acc
    rw [List.foldl_cons]
    rcases ih (bestFold bbox mt acc t) with h | ⟨u, hu, h⟩
    · rw [h]
      simp only [bestFold]
      split_ifs
      · exact Or.inr ⟨t, List.mem_cons_self _ _, rfl⟩
      · exact Or.inl rfl
    · exact Or.inr ⟨u, List.mem_cons_of_mem _ hu, h⟩

lemma bestMatch_mem (tracks : List (ℕ × TrackRec)) (bbox : Box) (mt : ℚ) (tid : ℕ)
    (h : bestMatch tracks bbox mt = some tid) : tid ∈ keysOf tracks := by
  unfold bestMatch at h
  rcases bestFold_fst_mem bbox mt tracks (none, 0) with h' | ⟨t, ht, h'⟩
  · rw [h] at h'; exact absurd h' (by simp)
  · obtain rfl := Option.some.inj (h.symm.trans h')
    exact List.mem_map.mpr ⟨t, ht, rfl⟩

/-- Each loop iteration either updates a matched track in place (keys and
`next_id` unchanged) or appends a fresh track under `next_id` and increments
`next_id`. -/
lemma stepDet_cases (fid : ℤ) (acc : TrackerState × List TrackedDet) (d : Det) :
    ((stepDet fid acc d).1.nextId = acc.1.nextId ∧
      keysOf (stepDet fid acc d).1.tracks = keysOf acc.1.tracks) ∨
    ((stepDet fid acc d).1.nextId = acc.1.nextId + 1 ∧
      keysOf (stepDet fid acc d).1.tracks = keysOf acc.1.tracks ++ [acc.1.nextId]) := by
  unfold stepDet
  cases hb : bestMatch acc.1.tracks d.bbox acc.1.matchThresh with
  | none => exact Or.inr (by simp [hb, newTrackStep, keysOf_append, keysOf])
  | some tid =>
    by_cases htid : tid = 0
    · exact Or.inr (by simp [hb, htid, newTrackStep, keysOf_append, keysOf])
    · exact Or.inl (by simp [hb, htid, keysOf_setTrack])

lemma stepDet_config (fid : ℤ) (acc : TrackerState × List TrackedDet) (d : Det) :
    (stepDet fid acc d).1.maxAge = acc.1.maxAge ∧
    (stepDet fid acc d).1.trackThresh = acc.1.trackThresh ∧
    (stepDet fid acc d).1.matchThresh = acc.1.matchThresh := by
  unfold stepDet
  cases hb : bestMatch acc.1.tracks d.bbox acc.1.matchThresh with
  | none => simp [hb, newTrackStep]
  | some tid => by_cases htid : tid = 0 <;> simp [hb, htid, newTrackStep]

lemma foldl_stepDet_config (fid : ℤ) :
    ∀ (ds : List Det) (acc : TrackerState × List TrackedDet),
      ((ds.foldl (stepDet fid) acc).1).maxAge = acc.1.maxAge := by
  intro ds
  induction ds with
  | nil => intro acc; rfl
  | cons d ds ih =>
    intro acc
    rw [List.foldl_cons, ih (stepDet fid acc d)]
    exact (stepDet_config fid acc d).1

lemma foldl_stepDet_mono (fid : ℤ) :
    ∀ (ds : List Det) (acc : TrackerState × List TrackedDet),
      acc.1.nextId ≤ ((ds.foldl (stepDet fid) acc).1).nextId := by
  intro ds
  induction ds with
  | nil => intro acc; exact le_refl _
  | cons d ds ih =>
    intro acc
    rw [List.foldl_cons]
    refine le_trans ?_ (ih (stepDet fid acc d))
    rcases stepDet_cases fid acc d with ⟨h, _⟩ | ⟨h, _⟩ <;> omega

/-- Keys after the detection loop: the old keys (in order), followed by the
block of freshly allocated ids `next_id, next_id + 1, …`, in allocation
order. -/
lemma foldl_stepDet_keys (fid : ℤ) :
    ∀ (ds : List Det) (acc : TrackerState × List TrackedDet),
      keysOf ((ds.foldl (stepDet fid) acc).1).tracks
        = keysOf acc.1.tracks ++
          List.range' acc.1.nextId (((ds.foldl (stepDet fid) acc).1).nextId - acc.1.nextId) := by
  intro ds
  induction ds with
  | nil => intro acc; simp
  | cons d ds ih =>
    intro acc
    rw [List.foldl_cons]
    have hmono := foldl_stepDet_mono fid ds (stepDet fid acc d)
    rcases stepDet_cases fid acc d with ⟨h1, h2⟩ | ⟨h1, h2⟩
    · rw [ih (stepDet fid acc d), h1, h2]
    · rw [ih (stepDet fid acc d), h1, h2]
      rw [h1] at hmono
      have hk : ((ds.foldl (stepDet fid) (stepDet fid acc d)).1).nextId - acc.1.nextId
          = (((ds.foldl (stepDet fid) (stepDet fid acc d)).1).nextId - (acc.1.nextId + 1)) + 1 := by
        omega
      rw [hk, List.range'_succ, List.append_assoc, List.singleton_append]

/-- Associator invariant: `next_id` is at least `1`, and every live track id
is a positive integer strictly below `next_id`. -/
def InvTracker (s : TrackerState) : Prop :=
  1 ≤ s.nextId ∧ ∀ p ∈ s.tracks, 1 ≤ p.1 ∧ p.1 < s.nextId

lemma newTrackStep_inv (fid : ℤ) (s : TrackerState) (outs : List TrackedDet) (d : Det)
    (h1 : 1 ≤ s.nextId) (h2 : ∀ p ∈ s.tracks, 1 ≤ p.1 ∧ p.1 < s.nextId) :
    InvTracker (newTrackStep s outs d fid).1 ∧
    ∀ r ∈ (newTrackStep s outs d fid).2,
      r ∈ outs ∨ (1 ≤ r.trackId ∧ r.trackId < (newTrackStep s outs d fid).1.nextId) := by
  refine ⟨⟨by simp only [newTrackStep]; omega, ?_⟩, ?_⟩
  · intro p hp
    simp only [newTrackStep] at hp ⊢
    rcases List.mem_append.mp hp with hp | hp
    · have := h2 p hp
      omega
    · rw [List.mem_singleton] at hp
      subst hp
      dsimp only
      omega
  · intro r hr
    simp only [newTrackStep] at hr ⊢
    rcases List.mem_append.mp hr with hr | hr
    · exact Or.inl hr
    · rw [List.mem_singleton] at hr
      subst hr
      dsimp only
      omega

lemma stepDet_inv (fid : ℤ) (acc : TrackerState × List TrackedDet) (d : Det)
    (h : InvTracker acc.1) :
    InvTracker (stepDet fid acc d).1 ∧
    ∀ r ∈ (stepDet fid acc d).2,
      r ∈ acc.2 ∨ (1 ≤ r.trackId ∧ r.trackId < (stepDet fid acc d).1.nextId) := by
  obtain ⟨h1, h2⟩ := h
  unfold stepDet
  cases hb : bestMatch acc.1.tracks d.bbox acc.1.matchThresh with
  | none =>
    simp only [hb]
    exact newTrackStep_inv fid acc.1 acc.2 d h1 h2
  | some tid =>
    simp only [hb]
    by_cases htid : tid = 0
    · rw [if_pos htid]
      exact newTrackStep_inv fid acc.1 acc.2 d h1 h2
    · rw [if_neg htid]
      have htid' : tid ∈ keysOf acc.1.tracks := bestMatch_mem _ _ _ _ hb
      obtain ⟨q, hq, hq1⟩ := List.mem_map.mp htid'
      have hqb := h2 q hq
      refine ⟨⟨h1, ?_⟩, ?_⟩
      · intro p hp
        dsimp only at hp ⊢
        obtain ⟨u, hu, hpu⟩ := mem_setTrack_fst acc.1.tracks tid _ p hp
        have := h2 u hu
        omega
      · intro r hr
        dsimp only at hr ⊢
        rcases List.mem_append.mp hr with hr | hr
        · exact Or.inl hr
        · rw [List.mem_singleton] at hr
          subst hr
          right
          dsimp only
          omega

lemma foldl_stepDet_inv (fid : ℤ) :
    ∀ (ds : List Det) (acc : TrackerState × List TrackedDet), InvTracker acc.1 →
      InvTracker ((ds.foldl (stepDet fid) acc).1) ∧
      ∀ r ∈ (ds.foldl (stepDet fid) acc).2,
        r ∈ acc.2 ∨ (1 ≤ r.trackId ∧ r.trackId < ((ds.foldl (stepDet fid) acc).1).nextId) := by
  intro ds
  induction ds with
  | nil => intro acc h; exact ⟨h, fun r hr => Or.inl hr⟩
  | cons d ds ih =>
    intro acc h
    rw [List.foldl_cons]
    obtain ⟨hstep, houts⟩ := stepDet_inv fid acc d h
    obtain ⟨hinv, houts'⟩ := ih (stepDet fid acc d) hstep
    refine ⟨hinv, ?_⟩
    intro r hr
    rcases houts' r hr with hr' | hr'
    · rcases houts r hr' with hr'' | hr''
      · exact Or.inl hr''
      · refine Or.inr ⟨hr''.1, lt_of_lt_of_le hr''.2 ?_⟩
        exact foldl_stepDet_mono fid ds (stepDet fid acc d)
    · exact Or.inr hr'

/-- C3. After `update(detections, frame_id)`, a track is in the active set
iff it was kept alive or created by this call (present after the detection
loop) and satisfies `frame_id - last_seen < max_age`; equivalently, every
track aged `≥ max_age` at the end of the call is evicted in that same call
and every younger track remains. -/
theorem eviction_exact (s : TrackerState) (dets : List Det) (fid : ℤ)
    (tid : ℕ) (tr : TrackRec) :
    (tid, tr) ∈ ((updateTracker s dets fid).1).tracks ↔
      ((tid, tr) ∈ (midState s dets fid).tracks ∧ fid - tr.lastSeen < s.maxAge) := by
  unfold updateTracker
  simp only [List.mem_filter, decide_eq_true_eq]
  have hage : (midState s dets fid).maxAge = s.maxAge := by
    unfold midState
    exact foldl_stepDet_config fid _ _
  rw [hage]

lemma stepDet_outs_map (fid : ℤ) (acc : TrackerState × List TrackedDet) (d : Det) :
    ((stepDet fid acc d).2).map (·.det) = acc.2.map (·.det) ++ [d] := by
  unfold stepDet
  cases hb : bestMatch acc.1.tracks d.bbox acc.1.matchThresh with
  | none => simp [hb, newTrackStep]
  | some tid => by_cases htid : tid = 0 <;> simp [hb, htid, newTrackStep]

lemma foldl_stepDet_outs_map (fid : ℤ) :
    ∀ (ds : List Det) (acc : TrackerState × List TrackedDet),
      ((ds.foldl (stepDet fid) acc).2).map (·.det) = acc.2.map (·.det) ++ ds := by
  intro ds
  induction ds with
  | nil => intro acc; simp
  | cons d ds ih =>
    intro acc
    rw [List.foldl_cons, ih (stepDet fid acc d), stepDet_outs_map,
      List.append_assoc, List.singleton_append]

/-- The returned `tracked_objects` are exactly the high-confidence input
detections, in input order, each packaged with its assigned id. -/
lemma updateTracker_outs_map (s : TrackerState) (dets : List Det) (fid : ℤ) :
    ((updateTracker s dets fid).2).map (·.det) =
      dets.filter fun d => s.trackThresh < d.confidence := by
  unfold updateTracker midOuts
  rw [foldl_stepDet_outs_map]
  simp

/-- C4. Detections with `confidence ≤ track_thresh` play no role: removing
them from the input leaves the updated state and the returned list unchanged,
and every returned record stems from a detection with
`confidence > track_thresh` — so a low-confidence detection is never tagged,
never returned, and never creates or modifies a track. -/
theorem low_confidence_ignored (s : TrackerState) (dets : List Det) (fid : ℤ) :
    updateTracker s dets fid =
      updateTracker s (dets.filter fun d => s.trackThresh < d.confidence) fid ∧
    ∀ r ∈ (updateTracker s dets fid).2, s.trackThresh < r.det.confidence := by
  constructor
  · unfold updateTracker midState midOuts
    rw [List.filter_filter]
    simp only [Bool.and_self]
  · intro r hr
    have hr' : r.det ∈ ((updateTracker s dets fid).2).map (·.det) :=
      List.mem_map_of_mem _ hr
    rw [updateTracker_outs_map] at hr'
    simpa using (List.mem_filter.mp hr').2

/-- C10. `update` returns exactly the detections with
`confidence > track_thresh`, in their original input order, each carrying the
full input detection plus a (total, hence non-null) track id. -/
theorem output_is_high_confidence_in_order (s : TrackerState) (dets : List Det) (fid : ℤ) :
    ((updateTracker s dets fid).2).map (·.det) =
      dets.filter fun d => s.trackThresh < d.confidence :=
  updateTracker_outs_map s dets fid

/-- C9. Track-id bookkeeping: the invariant holds initially and is preserved
by `update`; `next_id` never decreases; the ids live after the detection loop
are the old ids followed by the freshly allocated block
`next_id, next_id + 1, …` (so creation order is strictly increasing and no
fresh id ever collides with a live or previously assigned id); and every
returned id is a positive integer below the new `next_id`. -/
theorem track_ids_fresh_positive_increasing (s : TrackerState) (dets : List Det)
    (fid : ℤ) (h : InvTracker s) :
    (∀ tt mt ma, InvTracker (initTracker tt mt ma)) ∧
    InvTracker ((updateTracker s dets fid).1) ∧
    s.nextId ≤ ((updateTracker s dets fid).1).nextId ∧
    keysOf (midState s dets fid).tracks
      = keysOf s.tracks ++
        List.range' s.nextId ((midState s dets fid).nextId - s.nextId) ∧
    (∀ r ∈ (updateTracker s dets fid).2,
      1 ≤ r.trackId ∧ r.trackId < ((updateTracker s dets fid).1).nextId) := by
  have hfold := foldl_stepDet_inv fid (dets.filter fun d => s.trackThresh < d.confidence)
    (s, []) h
  refine ⟨?_, ?_, ?_, ?_, ?_⟩
  · intro tt mt ma
    exact ⟨le_refl 1, by simp [initTracker]⟩
  · obtain ⟨⟨h1, h2⟩, _⟩ := hfold
    refine ⟨by simpa [updateTracker] using h1, ?_⟩
    intro p hp
    simp only [updateTracker, List.mem_filter] at hp
    exact (by simpa [updateTracker, midState] using h2 p (by exact hp.1) :)
  · simpa [updateTracker, midState] using
      foldl_stepDet_mono fid (dets.filter fun d => s.trackThresh < d.confidence) (s, [])
  · exact foldl_stepDet_keys fid _ _
  · intro r hr
    obtain ⟨_, houts⟩ := hfold
    rcases houts r (by simpa [updateTracker, midOuts] using hr) with hr' | hr'
    · exact absurd hr' (List.not_mem_nil r)
    · simpa [updateTracker, midState] using hr'

/-- Concrete witness for `track_ids_fresh_positive_increasing`. -/
theorem track_ids_witness :
    InvTracker ((updateTracker (initTracker (1/2) (4/5) 30)
        [⟨(0, 0, 10, 10), 9/10, "person"⟩] 1).1) :=
  (track_ids_fresh_positive_increasing (initTracker (1/2) (4/5) 30)
    [⟨(0, 0, 10, 10), 9/10, "person"⟩] 1
    ⟨le_refl 1, by simp [initTracker]⟩).2.1

/-! ## The Aggregator (`track_state_processor.py`, `models.py`) -/

/-- A decoded Python/JSON value reaching `parse_bbox`.  A string entry
carries the rational value its text would yield under `float(...)`, or
`none` when that conversion raises. -/
inductive PyVal : Type
  | num (q : ℚ)
  | pystr (numVal : Option ℚ)
  | pybool (b : Bool)
  | pylist (xs : List PyVal)
  | pydict (kvs : List (String × PyVal))
  | pynone

/-- Python `float(x)` on a decoded entry: numbers pass through, booleans
coerce to `0`/`1`, numeric strings carry their parsed value, everything else
raises (`none`). -/
def pyFloat : PyVal → Option ℚ
  | .num q => some q
  | .pybool b => some (if b then 1 else 0)
  | .pystr v => v
  | _ => none

/-- `bbox.get(key, 0)` in the dict branch of `parse_bbox`. -/
def dictGet (kvs : List (String × PyVal)) (k : String) : PyVal :=
  match kvs.find? (fun p => p.1 = k) with
  | some p => p.2
  | none => .num 0

/-- The `bbox_data` argument of `parse_bbox`: either a string, recorded
through its `json.loads` result (`none` when loading raises), or an
already-decoded value. -/
inductive BboxData : Type
  | raw (parsed : Option PyVal)
  | val (v : PyVal)

/-- The decoded payload `parse_bbox` dispatches on after the
`isinstance(bbox_data, str)` branch; `none` means the `try` block raised. -/
def payloadOf : BboxData → Option PyVal
  | .raw p => p
  | .val v => some v

/-- Dispatch of `parse_bbox` on the decoded payload: a list with at least
four entries yields its first four floats, a dict yields
`float(get(k, 0))` for the four corner keys, and every other shape — or a
`float(...)` exception (`none` from `pyFloat`) — yields `(0, 0, 0, 0)`. -/
def parsePayload : Option PyVal → ℚ × ℚ × ℚ × ℚ
  | none => (0, 0, 0, 0)
  | some (.pylist (a :: b :: c :: d :: _)) =>
    (match pyFloat a, pyFloat b, pyFloat c, pyFloat d with
     | some x1, some y1, some x2, some y2 => (x1, y1, x2, y2)
     | _, _, _, _ => (0, 0, 0, 0))
  | some (.pydict kvs) =>
    (match pyFloat (dictGet kvs "x1"), pyFloat (dictGet kvs "y1"),
        pyFloat (dictGet kvs "x2"), pyFloat (dictGet kvs "y2") with
     | some x1, some y1, some x2, some y2 => (x1, y1, x2, y2)
     | _, _, _, _ => (0, 0, 0, 0))
  | some _ => (0, 0, 0, 0)

/-- `parse_bbox` (`track_state_processor.py` lines 33-52). -/
def parse_bbox (bd : BboxData) : ℚ × ℚ × ℚ × ℚ :=
  parsePayload (payloadOf bd)

/-- A row of the `detections` table as consumed by the Aggregator
(`models.py` lines 10-19); timestamps are UTC whole seconds. -/
structure DbDet where
  cameraId : String
  trackId : Option ℤ
  timestamp : ℤ
  className : String
  bbox : BboxData

/-- Case-folded characters of a string, for SQL `ilike`. -/
def lowerChars (s : String) : List Char := s.data.map Char.toLower

def hasPrefixChars : List Char → List Char → Bool
  | _, [] => true
  | [], _ :: _ => false
  | a :: as, b :: bs => a = b && hasPrefixChars as bs

def hasInfixChars : List Char → List Char → Bool
  | [], pat => pat.isEmpty
  | l@(_ :: rest), pat => hasPrefixChars l pat || hasInfixChars rest pat

/-- `Detection.class_name.ilike('%person%')` of `get_recent_detections`. -/
def personLike (s : String) : Bool := hasInfixChars (lowerChars s) (lowerChars "person")

/-- SQL `ORDER BY camera_id, track_id, timestamp` comparison. -/
def detLe (d1 d2 : DbDet) : Bool :=
  if d1.cameraId ≠ d2.cameraId then decide (d1.cameraId < d2.cameraId)
  else if d1.trackId.getD 0 ≠ d2.trackId.getD 0 then
    decide (d1.trackId.getD 0 < d2.trackId.getD 0)
  else decide (d1.timestamp ≤ d2.timestamp)

def insertLe (d : DbDet) : List DbDet → List DbDet
  | [] => [d]
  | e :: es => if detLe d e then d :: e :: es else e :: insertLe d es

/-- Stable insertion sort modelling the SQL `ORDER BY` of
`get_recent_detections`. -/
def sortDets : List DbDet → List DbDet
  | [] => []
  | d :: ds => insertLe d (sortDets ds)

/-- `WINDOW_HOURS = 1` (line 26). -/
def WINDOW_HOURS : ℤ := 1

/-- `MIN_DETECTIONS = 3` (line 27). -/
def MIN_DETECTIONS : ℕ := 3

/-- `get_recent_detections` (lines 55-68): the last `WINDOW_HOURS` hours of
detections with a non-null `track_id` and a person-like class, ordered by
`(camera_id, track_id, timestamp)`.  `now` is the cycle's
`datetime.utcnow()` in seconds. -/
def get_recent_detections (now : ℤ) (hist : List DbDet) : List DbDet :=
  sortDets (hist.filter fun d =>
    decide (now - 3600 * WINDOW_HOURS ≤ d.timestamp) && d.trackId.isSome &&
      personLike d.className)

/-- Python `max` over a list (only reached on nonempty lists, where the
default is irrelevant). -/
def listMax : List ℤ → ℤ
  | [] => 0
  | x :: xs => xs.foldl max x

/-- Python `min` over a list. -/
def listMin : List ℤ → ℤ
  | [] => 0
  | x :: xs => xs.foldl min x

/-- Consecutive pairs `(xs[i-1], xs[i])` of the `for i in range(1, n)` loop. -/
def consecPairs {α : Type} : List α → List (α × α)
  | [] => []
  | [_] => []
  | a :: b :: rest => (a, b) :: consecPairs (b :: rest)

/-- One `speeds` entry of `compute_metrics` (lines 87-92): Euclidean
distance between consecutive positions divided by elapsed seconds, `0`
when no time has elapsed (`dt ≤ 0`). -/
noncomputable def stepSpeed (p q : (ℚ × ℚ) × ℤ) : ℝ :=
  if 0 < q.2 - p.2 then
    Real.sqrt (((q.1.1 - p.1.1 : ℚ) : ℝ) ^ 2 + ((q.1.2 - p.1.2 : ℚ) : ℝ) ^ 2) /
      ((q.2 - p.2 : ℤ) : ℝ)
  else 0

/-- `sum(speeds)/len(speeds) if speeds else 0` (line 94). -/
noncomputable def avgOf : List ℝ → ℝ
  | [] => 0
  | speeds => speeds.sum / (speeds.length : ℝ)

/-- The computed fields of one `TrackState` row (`models.py` lines 50-74)
as produced by `compute_metrics`. -/
structure TSRow where
  cameraId : String
  trackId : Option ℤ
  zoneId : Option ℤ
  className : String
  enterTime : ℤ
  lastTime : ℤ
  totalDwellSec : ℤ
  detectionCount : ℕ
  avgSpeed : ℝ
  status : String

open scoped Classical

/-- `compute_metrics` (`track_state_processor.py` lines 71-104).  Positions
along the trajectory are `parse_bbox(d.bbox)[:2]`: the first two components
of the parsed tuple, i.e. the `(x1, y1)` top-left corner — the adjacent
comment says `(cx, cy)`, but `[:2]` of `(x1, y1, x2, y2)` is not the
center. -/
noncomputable def compute_metrics (track_dets : List DbDet) : Option TSRow :=
  match track_dets with
  | [] => none
  | d0 :: _ =>
    if track_dets.length < MIN_DETECTIONS then none
    else
      let times := track_dets.map (·.timestamp)
      let dwell := listMax times - listMin times
      let pts : List ((ℚ × ℚ) × ℤ) := track_dets.map fun d =>
        (((parse_bbox d.bbox).1, (parse_bbox d.bbox).2.1), d.timestamp)
      let speeds := (consecPairs pts).map fun pq => stepSpeed pq.1 pq.2
      let avg := avgOf speeds
      some { cameraId := d0.cameraId, trackId := d0.trackId,
             zoneId := if avg < 5 then some 1 else none,
             className := d0.className,
             enterTime := listMin times, lastTime := listMax times,
             totalDwellSec := dwell, detectionCount := track_dets.length,
             avgSpeed := avg,
             status := if 120 < dwell then "loitering" else "active" }

/-- The spec's wording of Aggregator step 3 (§4.2): the same mean of
per-step speeds, but with positions at the bounding-box CENTERS
`((x1+x2)/2, (y1+y2)/2)`.  Stated separately so it can be compared with
`compute_metrics`, which uses the `(x1, y1)` corner. -/
noncomputable def avgSpeedSpecCenters (track_dets : List DbDet) : ℝ :=
  avgOf ((consecPairs (track_dets.map fun d =>
    ((((parse_bbox d.bbox).1 + (parse_bbox d.bbox).2.2.1) / 2,
      ((parse_bbox d.bbox).2.1 + (parse_bbox d.bbox).2.2.2) / 2), d.timestamp))).map
      fun pq => stepSpeed pq.1 pq.2)

/-- The group key `f"{d.camera_id}_{d.track_id}"` (line 116). -/
def groupKeyOf (d : DbDet) : String :=
  d.cameraId ++ "_" ++ (match d.trackId with | some t => toString t | none => "None")

/-- `tracks[key].append(d)` on a `defaultdict(list)`: a first occurrence of
a key appends a fresh bucket (dict insertion order), later ones extend it in
place. -/
def addToGroup (gs : List (String × List DbDet)) (k : String) (d : DbDet) :
    List (String × List DbDet) :=
  if gs.any (fun p => p.1 = k) then
    gs.map fun p => if p.1 = k then (p.1, p.2 ++ [d]) else p
  else gs ++ [(k, [d])]

/-- The grouping loop of `process_tracks` (lines 112-117). -/
def buildGroups (dets : List DbDet) : List (String × List DbDet) :=
  dets.foldl (fun gs d => addToGroup gs (groupKeyOf d) d) []

/-- A persisted `track_states` row: the surrogate autoincrement primary key
`id` (`models.py` line 57) plus the computed fields. -/
structure StoredRow where
  rowId : ℕ
  data : TSRow

/-- The `track_states` table together with its id sequence. -/
structure TSStore where
  rows : List StoredRow
  seq : ℕ

/-- `session.merge(TrackState(**m))` (line 132): the metrics dict carries no
`id`, so the merged instance has a `None` primary key and SQLAlchemy INSERTS
a fresh row — `merge` reconciles by primary key only, never by the
`unique_track_zone` constraint on `(camera_id, track_id, zone_id)`. -/
def mergeRow (st : TSStore) (m : TSRow) : TSStore :=
  { rows := st.rows ++ [⟨st.seq, m⟩], seq := st.seq + 1 }

/-- One `process_tracks` cycle (lines 107-146) over an explicit detection
history and store state: load the window, group by camera/track, compute
per-group metrics, delete persisted rows with
`last_time < now - (WINDOW_HOURS + 1) hours`, then merge each metrics row.
(`datetime.utcnow()` is read twice microseconds apart in the source; both
reads are modelled as the single instant `now`.) -/
noncomputable def process_tracks (now : ℤ) (hist : List DbDet) (store : TSStore) : TSStore :=
  let dets := get_recent_detections now hist
  let metrics := (buildGroups dets).filterMap fun g => compute_metrics g.2
  let cutoff := now - 3600 * (WINDOW_HOURS + 1)
  let afterDelete : TSStore :=
    { rows := store.rows.filter fun r => !decide (r.data.lastTime < cutoff),
      seq := store.seq }
  metrics.foldl mergeRow afterDelete

/-! ### Claim theorems about the Aggregator -/

/-- A bbox that arrives as a JSON-style list of numbers. -/
def bboxList (xs : List ℚ) : BboxData := .val (.pylist (xs.map .num))

/-- A person detection on camera `CAM_001`, track `7`. -/
def mkDet (t : ℤ) (xs : List ℚ) : DbDet := ⟨"CAM_001", some 7, t, "person", bboxList xs⟩

/-- C7 counterexample: for a group with exactly one detection,
`compute_metrics` yields no row at all (`1 < MIN_DETECTIONS`), so the
aggregation does not produce `total_dwell_sec = 0` and `avg_speed = 0` for
that track. -/
theorem c7_single_detection_counterexample :
    ¬ ∃ m : TSRow, compute_metrics [mkDet 0 [0, 0, 10, 10]] = some m ∧
      m.totalDwellSec = 0 ∧ m.avgSpeed = 0 := by
  rintro ⟨m, hm, -⟩
  simp [compute_metrics, MIN_DETECTIONS, mkDet] at hm

/-- C7 amended: a track whose in-window group contains exactly one detection
is discarded by `compute_metrics` (`n < MIN_DETECTIONS = 3`), so no
TrackState row is produced for it at all. -/
theorem single_detection_yields_no_row (g : List DbDet) (h : g.length = 1) :
    compute_metrics g = none := by
  cases g with
  | nil => simp at h
  | cons d gs =>
    cases gs with
    | nil => simp [compute_metrics, MIN_DETECTIONS]
    | cons e gs' => simp at h

/-- Witness for `single_detection_yields_no_row`. -/
theorem single_detection_yields_no_row_witness :
    compute_metrics [mkDet 0 [0, 0, 10, 10]] = none :=
  single_detection_yields_no_row [mkDet 0 [0, 0, 10, 10]] rfl

/-- The three-detection group exhibiting the corner-vs-center divergence:
the `(x1, y1)` corner never moves while the box grows, so the centers move
by `(5, 5)` each second. -/
def detsC1 : List DbDet :=
  [mkDet 0 [0, 0, 10, 10], mkDet 1 [0, 0, 20, 20], mkDet 2 [0, 0, 30, 30]]

/-- C1: `compute_metrics` reports `avg_speed = 0` for `detsC1` because it
measures the `parse_bbox(...)[:2]` corner trajectory, while the spec's
center-based average speed of the same group is `√50 ≈ 7.07 > 0` — the code
diverges from its own `(cx, cy)` comment and from the spec. -/
theorem corner_vs_center_speed :
    (compute_metrics detsC1).map (·.avgSpeed) = some 0 ∧
    avgSpeedSpecCenters detsC1 = Real.sqrt 50 ∧ (0 : ℝ) < Real.sqrt 50 := by
  refine ⟨?_, ?_, Real.sqrt_pos.mpr (by norm_num)⟩
  · norm_num [compute_metrics, MIN_DETECTIONS, detsC1, mkDet, bboxList, parse_bbox,
      payloadOf, parsePayload, pyFloat, consecPairs, stepSpeed, avgOf, listMax, listMin,
      Real.sqrt_zero]
  · norm_num [avgSpeedSpecCenters, detsC1, mkDet, bboxList, parse_bbox, payloadOf,
      parsePayload, pyFloat, consecPairs, stepSpeed, avgOf]

/-- All four entries convert under `float(...)`. -/
def floats4Ok (a b c d : PyVal) : Bool :=
  (pyFloat a).isSome && (pyFloat b).isSome && (pyFloat c).isSome && (pyFloat d).isSome

/-- A payload the list branch of `parse_bbox` accepts without an exception. -/
def ListForm (bd : BboxData) : Prop :=
  ∃ a b c d rest, payloadOf bd = some (.pylist (a :: b :: c :: d :: rest)) ∧
    floats4Ok a b c d = true

/-- A payload the dict branch of `parse_bbox` accepts without an exception. -/
def DictForm (bd : BboxData) : Prop :=
  ∃ kvs, payloadOf bd = some (.pydict kvs) ∧
    floats4Ok (dictGet kvs "x1") (dictGet kvs "y1")
      (dictGet kvs "x2") (dictGet kvs "y2") = true

/-- A payload that is a list of exactly four entries (the claim's
"4-element ordered list"). -/
def FourEltList (bd : BboxData) : Prop :=
  ∃ a b c d, payloadOf bd = some (.pylist [a, b, c, d])

/-- A payload that is an object/dict (the claim's "object with named corner
keys"). -/
def DictPayload (bd : BboxData) : Prop :=
  ∃ kvs, payloadOf bd = some (.pydict kvs)

lemma parsePayload_default (p : Option PyVal)
    (h1 : ¬ ∃ a b c d rest, p = some (.pylist (a :: b :: c :: d :: rest)) ∧
      floats4Ok a b c d = true)
    (h2 : ¬ ∃ kvs, p = some (.pydict kvs) ∧
      floats4Ok (dictGet kvs "x1") (dictGet kvs "y1")
        (dictGet kvs "x2") (dictGet kvs "y2") = true) :
    parsePayload p = (0, 0, 0, 0) := by
  match p with
  | none => rfl
  | some (.num q) => rfl
  | some (.pystr v) => rfl
  | some (.pybool b) => rfl
  | some .pynone => rfl
  | some (.pylist []) => rfl
  | some (.pylist [_]) => rfl
  | some (.pylist [_, _]) => rfl
  | some (.pylist [_, _, _]) => rfl
  | some (.pylist (a :: b :: c :: d :: rest)) =>
    rcases hfa : pyFloat a with _ | x1 <;> rcases hfb : pyFloat b with _ | y1 <;>
      rcases hfc : pyFloat c with _ | x2 <;> rcases hfd : pyFloat d with _ | y2 <;>
      simp only [parsePayload, hfa, hfb, hfc, hfd]
    exact absurd ⟨a, b, c, d, rest, rfl, by simp [floats4Ok, hfa, hfb, hfc, hfd]⟩ h1
  | some (.pydict kvs) =>
    rcases hfa : pyFloat (dictGet kvs "x1") with _ | x1 <;>
      rcases hfb : pyFloat (dictGet kvs "y1") with _ | y1 <;>
      rcases hfc : pyFloat (dictGet kvs "x2") with _ | x2 <;>
      rcases hfd : pyFloat (dictGet kvs "y2") with _ | y2 <;>
      simp only [parsePayload, hfa, hfb, hfc, hfd]
    exact absurd ⟨kvs, rfl, by simp [floats4Ok, hfa, hfb, hfc, hfd]⟩ h2

/-- C8 counterexample: a five-element numeric list is neither a 4-element
list nor an object, yet `parse_bbox` returns its first four entries, not
`(0, 0, 0, 0)` — so "every other input returns `(0,0,0,0)`" fails as
stated. -/
theorem five_element_list_not_zeroed :
    ¬ FourEltList (bboxList [1, 2, 3, 4, 5]) ∧
    ¬ DictPayload (bboxList [1, 2, 3, 4, 5]) ∧
    parse_bbox (bboxList [1, 2, 3, 4, 5]) ≠ (0, 0, 0, 0) := by
  refine ⟨?_, ?_, ?_⟩
  · rintro ⟨a, b, c, d, h⟩
    simp [bboxList, payloadOf] at h
  · rintro ⟨kvs, h⟩
    simp [bboxList, payloadOf] at h
  · norm_num [bboxList, parse_bbox, parsePayload, payloadOf, pyFloat, Prod.ext_iff]

/-- C8 amended: `parse_bbox` is total; it accepts a list whose first four
entries convert to floats (extra entries ignored) and an object through
`get(key, 0)` on the four corner keys; a string payload behaves as its
decoded JSON; and every input matching neither accepted form — including a
malformed JSON string or a non-numeric entry — yields `(0, 0, 0, 0)`. -/
theorem parse_bbox_total_forms :
    (∀ (x1 y1 x2 y2 : ℚ) (rest : List PyVal),
      parse_bbox (.val (.pylist (.num x1 :: .num y1 :: .num x2 :: .num y2 :: rest))) =
        (x1, y1, x2, y2)) ∧
    (∀ x1 y1 x2 y2 : ℚ,
      parse_bbox (.val (.pydict
        [("x1", .num x1), ("y1", .num y1), ("x2", .num x2), ("y2", .num y2)])) =
        (x1, y1, x2, y2)) ∧
    (∀ v : PyVal, parse_bbox (.raw (some v)) = parse_bbox (.val v)) ∧
    parse_bbox (.raw none) = (0, 0, 0, 0) ∧
    (∀ bd : BboxData, ¬ ListForm bd → ¬ DictForm bd → parse_bbox bd = (0, 0, 0, 0)) := by
  refine ⟨fun x1 y1 x2 y2 rest => rfl, ?_, fun v => rfl, rfl, ?_⟩
  · intro x1 y1 x2 y2
    simp [parse_bbox, payloadOf, parsePayload, dictGet, pyFloat]
  · intro bd h1 h2
    exact parsePayload_default (payloadOf bd) h1 h2

/-- Witness for `parse_bbox_total_forms`. -/
theorem parse_bbox_total_forms_witness :
    parse_bbox (.val (.pylist [.num 1, .num 2, .num 3, .num 4])) = (1, 2, 3, 4) ∧
    parse_bbox (.val .pynone) = (0, 0, 0, 0) :=
  ⟨parse_bbox_total_forms.1 1 2 3 4 [],
   parse_bbox_total_forms.2.2.2.2 (.val .pynone)
     (by rintro ⟨a, b, c, d, rest, h, -⟩; simp [payloadOf] at h)
     (by rintro ⟨kvs, h, -⟩; simp [payloadOf] at h)⟩

/-- A one-track window: three detections moving 10 px/s within the last
minute before `now = 10000`. -/
def histC6 : List DbDet :=
  [mkDet 9990 [0, 0, 5, 5], mkDet 9991 [10, 0, 15, 5], mkDet 9992 [20, 0, 25, 5]]

/-- C6: running the cycle twice on the identical history does not reproduce
the same rows: the first run writes one row for `(CAM_001, 7)`, the second
run INSERTS a second row with the same `(camera_id, track_id, zone_id)`
triple under a fresh surrogate id — `session.merge` reconciles by the
autoincrement primary key (absent from the metrics dict), not by
`unique_track_zone`, so duplicates accumulate instead of an idempotent
upsert. -/
theorem rerun_duplicates_track_state_rows :
    ((process_tracks 10000 histC6 ⟨[], 1⟩).rows.map fun r =>
        (r.data.cameraId, r.data.trackId)) = [("CAM_001", some 7)] ∧
    ((process_tracks 10000 histC6 (process_tracks 10000 histC6 ⟨[], 1⟩)).rows.map fun r =>
        (r.data.cameraId, r.data.trackId)) =
      [("CAM_001", some 7), ("CAM_001", some 7)] ∧
    (∃ z, (process_tracks 10000 histC6 (process_tracks 10000 histC6 ⟨[], 1⟩)).rows.map
        (fun r => r.data.zoneId) = [z, z]) ∧
    ((process_tracks 10000 histC6 (process_tracks 10000 histC6 ⟨[], 1⟩)).rows.map
        (fun r => r.rowId)) = [1, 2] := by
  refine ⟨rfl, rfl, ⟨_, rfl⟩, rfl⟩

/-- Witness for `low_confidence_ignored` at a concrete call. -/
theorem low_confidence_ignored_witness :
    (1 : ℚ)/2 < (TrackedDet.mk ⟨(0, 0, 10, 10), 9/10, "person"⟩ 1).det.confidence :=
  (low_confidence_ignored (initTracker (1/2) (1/2) 30)
      [⟨(0, 0, 10, 10), 9/10, "person"⟩] 1).2
    ⟨⟨(0, 0, 10, 10), 9/10, "person"⟩, 1⟩
    (by norm_num [updateTracker, midOuts, midState, stepDet, bestMatch, bestFold,
      newTrackStep, initTracker])
